import Mathlib

/-!
Verification development for the filesystem sandbox, save-location and
file-search logic of the mcp-3d-style-cartoon-gen-server repository
(src/index.ts, filesystem variant).  Paths are modelled as strings with
the forward slash as separator; the Node path functions used by the
source (normalize, resolve, dirname, join, relative) are embedded as
pure functions on such strings, and the filesystem is an oracle giving
the result of realpath for every path (none when resolution fails
because the target does not exist).
-/

namespace CartoonServer

/-- Models the JavaScript String.startsWith check as a prefix test on
the character lists of the two strings. -/
def jsStartsWith (s pre : String) : Bool :=
  pre.data.isPrefixOf s.data

/-- Splits a character list at every forward slash, mirroring a split
of the corresponding string on the separator. -/
def splitChars : List Char → List String
  | [] => [""]
  | c :: cs =>
    let rest := splitChars cs
    if c = '/' then "" :: rest
    else
      match rest with
      | [] => [String.mk [c]]
      | s :: tail => String.mk (c :: s.data) :: tail

/-- Splits a path string into its slash-separated parts. -/
def splitOnSlash (s : String) : List String :=
  splitChars s.data

/-- Resolves dot and dot-dot segments the way path.normalize does on an
absolute path: empty and single-dot segments vanish, a dot-dot segment
removes the preceding segment (and is dropped at the root). -/
def normSegs (segs : List String) : List String :=
  segs.foldl
    (fun acc seg =>
      if seg == "" || seg == "." then acc
      else if seg == ".." then acc.dropLast
      else acc ++ [seg])
    []

/-- Models path.normalize on an absolute path (the only inputs the
source applies it to): segments are cleaned and rejoined under a
leading slash, with no trailing slash. -/
def normalizeAbs (p : String) : String :=
  "/" ++ String.intercalate "/" (normSegs (splitOnSlash p))

/-- Models path.dirname on an already canonical absolute path. -/
def dirname (p : String) : String :=
  let segs := (splitOnSlash p).filter (fun s => !(s == ""))
  match segs with
  | [] => "/"
  | [_] => "/"
  | _ => "/" ++ String.intercalate "/" segs.dropLast

/-- Models the expandHome helper of the source: a leading tilde (alone
or followed by a slash) is replaced by the home directory via
path.join(home, filepath.slice(1)). -/
def expandHome (home filepath : String) : String :=
  if jsStartsWith filepath "~/" || filepath == "~" then
    home ++ String.mk (filepath.data.drop 1)
  else filepath

/-- The configuration the source establishes at startup: the allowed
directories list (already expanded, resolved and normalized, as the
module-level constant is), the working directory and the home
directory. -/
structure Cfg where
  allowedDirectories : List String
  cwd : String
  home : String

/-- The filesystem as the validatePath function observes it: realpath
follows every symlink and returns none when the target does not
exist. -/
structure FS where
  realpath : String → Option String

/-- The errors validatePath can produce.  accessDenied carries the
rejected absolute path and the allow-list, as the thrown message does;
notFound carries the parent directory named by the thrown message;
ioError models a filesystem error escaping a tool handler. -/
inductive Err where
  | accessDenied (path : String) (allowed : List String)
  | notFound (parentDir : String)
  | ioError (path : String)

/-- The first three lines of validatePath: expand a leading tilde, then
resolve against the working directory when the result is not absolute
(path.resolve of an absolute string only normalizes it). -/
def canonicalRequested (cfg : Cfg) (requestedPath : String) : String :=
  let expandedPath := expandHome cfg.home requestedPath
  if jsStartsWith expandedPath "/" then normalizeAbs expandedPath
  else normalizeAbs (cfg.cwd ++ "/" ++ expandedPath)

/-- The allow-list test of the source: some allowed directory is a
plain string prefix of the candidate.  The source performs no
boundary check after the matching root. -/
def isAllowedBy (allowed : List String) (p : String) : Bool :=
  allowed.any fun dir => jsStartsWith p dir

/-- The parent-directory branch of validatePath, reached when realpath
of the absolute path fails or when the real-path allow-list check
throws.  The access-denied throw for a parent outside the allow-list
sits inside the inner try block of the source, so its own catch
replaces it with the parent-does-not-exist error; this function mirrors
that control flow. -/
def validateParent (cfg : Cfg) (fs : FS) (absolute : String) : Except Err String :=
  let parentDir := dirname absolute
  match fs.realpath parentDir with
  | some realParentPath =>
      if isAllowedBy cfg.allowedDirectories (normalizeAbs realParentPath) then
        .ok absolute
      else
        .error (.notFound parentDir)
  | none => .error (.notFound parentDir)

/-- The security validation function of the source.  The throw for a
symlink target outside the allow-list is raised inside the same try
block whose catch handles a failed realpath, so the source falls
through to the parent-directory check instead of denying; this function
mirrors that control flow. -/
def validatePath (cfg : Cfg) (fs : FS) (requestedPath : String) : Except Err String :=
  let absolute := canonicalRequested cfg requestedPath
  let normalizedRequested := normalizeAbs absolute
  if !(isAllowedBy cfg.allowedDirectories normalizedRequested) then
    .error (.accessDenied absolute cfg.allowedDirectories)
  else
    match fs.realpath absolute with
    | some realPath =>
        let normalizedReal := normalizeAbs realPath
        if isAllowedBy cfg.allowedDirectories normalizedReal then
          .ok realPath
        else
          validateParent cfg fs absolute
    | none => validateParent cfg fs absolute

/-- Lower-cases every character of a string, for the nocase option of
the glob matcher. -/
def lowerStr (s : String) : String :=
  String.mk (s.data.map Char.toLower)

/-- The dot-segment restriction of minimatch: a globstar never swallows
a dot or dot-dot segment, nor (without the dot option) a segment
starting with a dot. -/
def dotViol (dot : Bool) (seg : String) : Bool :=
  seg == "." || seg == ".." || (!dot && jsStartsWith seg ".")

/-- Fuel-driven matcher for a single glob segment over character lists:
a star matches any run of characters inside the segment, every other
character matches itself.  The fuel argument only bounds the recursion;
the wrapper below always supplies enough. -/
def segMatchF : Nat → List Char → List Char → Bool
  | 0, _, _ => false
  | _ + 1, [], s => s.isEmpty
  | fuel + 1, p :: ps, s =>
      if p = '*' then
        segMatchF fuel ps s ||
          (match s with
           | [] => false
           | _ :: cs => segMatchF fuel (p :: ps) cs)
      else
        match s with
        | [] => false
        | c :: cs => p == c && segMatchF fuel ps cs

/-- Single-segment glob match with sufficient fuel: the recursion
removes a pattern or subject character at every step. -/
def segMatchB (pat s : List Char) : Bool :=
  segMatchF (pat.length + s.length + 1) pat s

/-- Matches one pattern part against one path segment, with the
minimatch dot rule: a pattern part that does not itself start with a
literal dot never matches a segment starting with a dot unless the dot
option is set. -/
def partMatch (dot nocase : Bool) (pat seg : String) : Bool :=
  if !dot && jsStartsWith seg "." && !(jsStartsWith pat ".") then false
  else
    segMatchB (if nocase then (lowerStr pat).data else pat.data)
      (if nocase then (lowerStr seg).data else seg.data)

/-- A parsed glob pattern part: a globstar (a part that is exactly two
stars) or an ordinary part matched within one segment. -/
inductive GPart where
  | lit (s : String)
  | star2

/-- Fuel-driven port of the part-by-part matching loop of minimatch.
A globstar that is the final pattern part swallows every remaining
segment (subject to the dot rule) but is never reached when the
segments are already exhausted, so a pattern ending in a globstar does
not match the bare preceding path.  A globstar followed by more pattern
first tries to swallow nothing and then swallows one segment at a
time.  A file exhausted before the pattern does not match (the partial
option of minimatch is off), and a pattern exhausted first matches only
the trailing empty segment of a path with a trailing slash. -/
def matchOneF (dot nocase : Bool) : Nat → List String → List GPart → Bool
  | 0, _, _ => false
  | _ + 1, [], [] => true
  | _ + 1, [], _ :: _ => false
  | _ + 1, f :: fr, [] => (f :: fr : List String) == [""]
  | _ + 1, f :: fr, .star2 :: [] =>
      (f :: fr).all fun seg => !(dotViol dot seg)
  | fuel + 1, f :: fr, .star2 :: q :: qs =>
      matchOneF dot nocase fuel (f :: fr) (q :: qs) ||
        (if dotViol dot f then false
         else matchOneF dot nocase fuel fr (.star2 :: q :: qs))
  | fuel + 1, f :: fr, .lit s :: qs =>
      partMatch dot nocase s f && matchOneF dot nocase fuel fr qs

/-- Models minimatch(target, pattern, options) for the option sets the
source uses (dot for excludes, nocase for the include pattern): both
strings are split on slashes, double-star parts become globstars, and
the matching loop runs with sufficient fuel. -/
def minimatchB (dot nocase : Bool) (pattern target : String) : Bool :=
  let gparts := (splitOnSlash pattern).map fun s =>
    if s == "**" then GPart.star2 else GPart.lit s
  let fparts := splitOnSlash target
  matchOneF dot nocase (fparts.length + gparts.length + 1) fparts gparts

/-- Models path.relative(rootPath, fullPath) for the shapes the search
walk produces, where the root followed by a slash is a prefix of the
full path. -/
def relativeTo (rootPath full : String) : String :=
  if (rootPath ++ "/").data.isPrefixOf full.data then
    String.mk (full.data.drop (rootPath.data.length + 1))
  else full

/-- The exclude test of searchFiles: a pattern containing no star is
wrapped into a recursive directory wildcard, and the (possibly wrapped)
pattern is matched against the root-relative path with the dot option
set. -/
def shouldExcludeB (excludePatterns : List String) (relativePath : String) : Bool :=
  excludePatterns.any fun pat =>
    let globPattern := if pat.data.contains '*' then pat else "**/" ++ pat ++ "/**"
    minimatchB true false globPattern relativePath

/-- A directory entry as the walk sees it: a file, or a directory whose
readdirOk flag records whether reading its children succeeds (the
source catches a failed readdir of a subdirectory in the loop of the
parent). -/
inductive Entry where
  | file (name : String)
  | dir (name : String) (readdirOk : Bool) (children : List Entry)

/-- The name of a directory entry. -/
def entryName : Entry → String
  | .file n => n
  | .dir n _ _ => n

/-- The recursive walk of searchFiles over the entries of the current
directory.  Per entry: a failed validatePath skips the entry entirely;
an excluded entry is skipped including descent; a name matching the
include pattern (case-insensitively) appends the full path; a directory
is then descended into, and a failure reading its children is caught by
the surrounding loop so the entry itself stays in the results.  The
fuel argument only bounds the recursion depth of the embedding; every
recursive call decreases it, and any fuel at least the number of tree
nodes plus the sibling chain length gives the behavior of the
source. -/
def searchStep (cfg : Cfg) (fs : FS) (rootPath pattern : String)
    (excludePatterns : List String) : Nat → String → List Entry → List String
  | 0, _, _ => []
  | _ + 1, _, [] => []
  | fuel + 1, currentPath, entry :: rest =>
      let fullPath := currentPath ++ "/" ++ entryName entry
      let fromEntry :=
        if (validatePath cfg fs fullPath).isOk then
          if shouldExcludeB excludePatterns (relativeTo rootPath fullPath) then []
          else
            (if minimatchB false true pattern (entryName entry) then [fullPath] else []) ++
              (match entry with
               | .file _ => []
               | .dir _ true children =>
                   searchStep cfg fs rootPath pattern excludePatterns fuel fullPath children
               | .dir _ false _ => [])
        else []
      fromEntry ++ searchStep cfg fs rootPath pattern excludePatterns fuel currentPath rest

/-- Models searchFiles(rootPath, pattern, excludePatterns): the top
level reads the entries of the root directory with no surrounding
catch, so a root that cannot be read (or is not a directory) makes the
whole search fail. -/
def searchFiles (cfg : Cfg) (fs : FS) (fuel : Nat) (rootPath pattern : String)
    (excludePatterns : List String) (rootDir : Entry) : Except Err (List String) :=
  match rootDir with
  | .dir _ true children =>
      .ok (searchStep cfg fs rootPath pattern excludePatterns fuel rootPath children)
  | _ => .error (.ioError rootPath)

/-- Models the search_files tool handler: the requested path is
validated first and the walk starts from the validated path; errors of
either step propagate to the caller. -/
def searchFilesTool (cfg : Cfg) (fs : FS) (fuel : Nat) (requestedPath pattern : String)
    (excludePatterns : List String) (rootDir : Entry) : Except Err (List String) := do
  let validPath ← validatePath cfg fs requestedPath
  searchFiles cfg fs fuel validPath pattern excludePatterns rootDir

/-- The environment state the image-save logic reads: the relevant
environment variables, the platform, the home directory, the user name,
the working directory, and oracles for directory existence and for the
success of mkdirSync and writeFileSync.  Separators are abstracted to
the forward slash. -/
structure Env where
  saveToDesktop : Option String
  platform : String
  userProfile : Option String
  xdgDesktopDir : Option String
  home : String
  username : String
  cwd : String
  existsDir : String → Bool
  mkdirOk : String → Bool
  writeOk : String → Bool

/-- Models getDesktopPath: on Windows the profile desktop (or a path
built from the user name) falling back to home when absent, on macOS
the home desktop unconditionally, and otherwise the XDG desktop
directory when set (non-empty, JavaScript truthiness) and existing,
else the home desktop when existing, else home.  The surrounding catch
of the source only guards the homedir and userInfo calls, which are
total here. -/
def getDesktopPath (env : Env) : String :=
  if env.platform == "win32" then
    let desktopPath :=
      match env.userProfile with
      | some up => up ++ "/Desktop"
      | none => "C:/Users/" ++ env.username ++ "/Desktop"
    if env.existsDir desktopPath then desktopPath else env.home
  else if env.platform == "darwin" then
    env.home ++ "/Desktop"
  else
    match env.xdgDesktopDir with
    | some xdg =>
        if xdg != "" && env.existsDir xdg then xdg
        else if env.existsDir (env.home ++ "/Desktop") then env.home ++ "/Desktop"
        else env.home
    | none =>
        if env.existsDir (env.home ++ "/Desktop") then env.home ++ "/Desktop"
        else env.home

/-- Models ensureDirectoryExists: true when the directory already
exists or mkdirSync with recursive creation succeeds, false when the
creation throws. -/
def ensureDirectoryExists (env : Env) (dirPath : String) : Bool :=
  if env.existsDir dirPath then true else env.mkdirOk dirPath

/-- Failures the save path can surface: only the fallback tier can
raise them, with the directory or file path involved. -/
inductive SaveErr where
  | mkdirFailed (dir : String)
  | writeFailed (path : String)

/-- The single directory the try block of saveImageWithProperPath
writes into: the desktop-derived generated-images directory when
SAVE_TO_DESKTOP is the string true, otherwise generated-images under
the working directory.  The two branches of the source differ only in
this directory. -/
def primaryDir (env : Env) : String :=
  if env.saveToDesktop == some "true" then getDesktopPath env ++ "/generated-images"
  else env.cwd ++ "/generated-images"

/-- The try block of saveImageWithProperPath: ensure the chosen
directory exists, then write the file (path.normalize of the joined
path is the identity on these already clean joins); none models a
thrown error reaching the catch. -/
def savePrimary (env : Env) (fileName : String) : Option String :=
  let dir := primaryDir env
  if ensureDirectoryExists env dir then
    let outputPath := dir ++ "/" ++ fileName
    if env.writeOk outputPath then some outputPath else none
  else none

/-- Models saveImageWithProperPath: any failure of the primary tier is
caught and the file is saved under the output directory of the working
directory instead; only a failure of that final tier escapes to the
caller. -/
def saveImageWithProperPath (env : Env) (fileName : String) : Except SaveErr String :=
  match savePrimary env fileName with
  | some p => .ok p
  | none =>
      let fallbackDir := env.cwd ++ "/output"
      if ensureDirectoryExists env fallbackDir then
        let fallbackPath := fallbackDir ++ "/" ++ fileName
        if env.writeOk fallbackPath then .ok fallbackPath
        else .error (.writeFailed fallbackPath)
      else .error (.mkdirFailed fallbackDir)

/-! Concrete fixtures used by the claim theorems below. -/

/-- A fully permissive sandbox configuration: the empty-string root is
a prefix of every candidate, so validatePath never rejects and the
search theorems can isolate the filtering logic. -/
def cfgOpen : Cfg := ⟨[""], "/", "/"⟩

/-- A filesystem where every path resolves to itself (no symlinks,
everything exists). -/
def fsId : FS := ⟨fun p => some p⟩

/-- Allow-list with the single root of the end-to-end example of the
specification. -/
def cfgData : Cfg := ⟨["/data"], "/data", "/root"⟩

/-- Filesystem for the end-to-end example: the root and the target file
exist and resolve to themselves, nothing else exists. -/
def fsData : FS := ⟨fun p =>
  if p = "/data/x.txt" then some "/data/x.txt"
  else if p = "/data" then some "/data" else none⟩

/-- Filesystem where only the root itself exists, so every deeper path
and its parent fail to resolve. -/
def fsDataOnlyRoot : FS := ⟨fun p =>
  if p = "/data" then some "/data" else none⟩

/-- Allow-list for the symlink-escape scenario. -/
def cfgHome : Cfg := ⟨["/home/user"], "/home/user", "/home/user"⟩

/-- Filesystem with a symlink inside the allowed root whose target lies
outside every allowed root, while the parent directory resolves to
itself. -/
def fsEvil : FS := ⟨fun p =>
  if p = "/home/user/evil" then some "/etc/secret"
  else if p = "/home/user" then some "/home/user" else none⟩

/-- Allow-list for the sibling-name collision scenario. -/
def cfgAlice : Cfg := ⟨["/home/alice"], "/", "/"⟩

/-- Filesystem for the three parent-directory branches of validatePath:
one existing in-root parent, one parent resolving outside the root
through a symlink, and the root itself; everything else is absent. -/
def fsParents : FS := ⟨fun p =>
  if p = "/data/ok" then some "/data/ok"
  else if p = "/data/sub" then some "/outside/sub"
  else if p = "/data" then some "/data" else none⟩

/-- The example tree of the specification: a.png and a subdirectory
holding b.png and c.txt. -/
def treePng : List Entry :=
  [.file "a.png", .dir "sub" true [.file "b.png", .file "c.txt"]]

/-- A tree with a node_modules directory holding a file, next to an
ordinary file. -/
def treeNM : List Entry :=
  [.dir "node_modules" true [.file "secret.txt"], .file "keep.txt"]

/-- A tree whose first directory cannot be read (its readdir throws),
next to an ordinary file. -/
def treeBad : List Entry :=
  [.dir "baddir" false [.file "x.png"], .file "a.png"]

/-- A tree with one subdirectory holding two files, used with the
filesystem below to make validatePath fail for exactly one of them. -/
def treeAuth : List Entry :=
  [.dir "sub" true [.file "x.png", .file "y.png"]]

/-- Allow-list for the per-entry authorization scenario. -/
def cfgDataRoot : Cfg := ⟨["/data"], "/", "/"⟩

/-- Filesystem where the walk root and one file resolve, while the
subdirectory and the other file do not, so validatePath rejects exactly
that file (its parent also fails to resolve) but accepts the
subdirectory through the parent branch. -/
def fsAuth : FS := ⟨fun p =>
  if p = "/data" then some "/data"
  else if p = "/data/sub/y.png" then some "/data/sub/y.png" else none⟩

/-- Environment for the save-location scenarios: Linux, no desktop
override, no XDG entry, an existing home desktop, and every directory
existing, creatable and writable. -/
def envAll : Env :=
  { saveToDesktop := none
    platform := "linux"
    userProfile := none
    xdgDesktopDir := none
    home := "/home/u"
    username := "u"
    cwd := "/srv/app"
    existsDir := fun _ => true
    mkdirOk := fun _ => true
    writeOk := fun _ => true }

/-- Environment where nothing exists, only the working-directory output
directory can be created, and only the target file inside it can be
written: the primary tier fails and the save degrades to the fallback
tier. -/
def envRO : Env :=
  { saveToDesktop := none
    platform := "linux"
    userProfile := none
    xdgDesktopDir := none
    home := "/home/u"
    username := "u"
    cwd := "/srv/app"
    existsDir := fun _ => false
    mkdirOk := fun d => d == "/srv/app/output"
    writeOk := fun p => p == "/srv/app/output/z.png" }

/-! Helper lemmas about the search walk, shared by the claim theorems
below. -/

/-- Every path the walk appends passed the exclude test at the moment
it was appended, so its root-relative path is not excluded. -/
theorem searchStep_not_excluded (cfg : Cfg) (fs : FS) (rootPath pattern : String)
    (excl : List String) :
    ∀ (fuel : Nat) (currentPath : String) (entries : List Entry) (p : String),
      p ∈ searchStep cfg fs rootPath pattern excl fuel currentPath entries →
      shouldExcludeB excl (relativeTo rootPath p) = false := by
  intro fuel
  induction fuel with
  | zero =>
    intro cur entries p hp
    simp only [searchStep] at hp
    exact absurd hp (List.not_mem_nil p)
  | succ n ih =>
    intro cur entries p hp
    cases entries with
    | nil =>
      simp only [searchStep] at hp
      exact absurd hp (List.not_mem_nil p)
    | cons e rest =>
      simp only [searchStep] at hp
      rcases List.mem_append.mp hp with h | h
      · split at h
        · split at h
          · exact absurd h (List.not_mem_nil p)
          · rcases List.mem_append.mp h with h2 | h2
            · split at h2
              · rw [List.mem_singleton] at h2
                subst h2
                rename_i hx _
                exact Bool.not_eq_true _ ▸ Bool.of_not_eq_true hx
              · exact absurd h2 (List.not_mem_nil p)
            · rcases e with n1 | ⟨n1, ok, children⟩
              · exact absurd h2 (List.not_mem_nil p)
              · cases ok with
                | true => exact ih _ _ _ h2
                | false => exact absurd h2 (List.not_mem_nil p)
        · exact absurd h (List.not_mem_nil p)
      · exact ih _ _ _ h

/-- Every path the walk returns extends the directory it was found in
by a slash and a non-trivial remainder, by induction along the walk. -/
theorem searchStep_below_current (cfg : Cfg) (fs : FS) (rootPath pattern : String)
    (excl : List String) :
    ∀ (fuel : Nat) (currentPath : String) (entries : List Entry) (p : String),
      p ∈ searchStep cfg fs rootPath pattern excl fuel currentPath entries →
      ∃ rest, p = currentPath ++ "/" ++ rest := by
  intro fuel
  induction fuel with
  | zero =>
    intro cur entries p hp
    simp only [searchStep] at hp
    exact absurd hp (List.not_mem_nil p)
  | succ n ih =>
    intro cur entries p hp
    cases entries with
    | nil =>
      simp only [searchStep] at hp
      exact absurd hp (List.not_mem_nil p)
    | cons e rest =>
      simp only [searchStep] at hp
      rcases List.mem_append.mp hp with h | h
      · split at h
        · split at h
          · exact absurd h (List.not_mem_nil p)
          · rcases List.mem_append.mp h with h2 | h2
            · split at h2
              · rw [List.mem_singleton] at h2
                exact ⟨entryName e, h2⟩
              · exact absurd h2 (List.not_mem_nil p)
            · rcases e with n1 | ⟨n1, ok, children⟩
              · exact absurd h2 (List.not_mem_nil p)
              · cases ok with
                | true =>
                  obtain ⟨r, hr⟩ := ih _ _ _ h2
                  refine ⟨entryName (.dir n1 true children) ++ "/" ++ r, ?_⟩
                  rw [hr]
                  simp [String.append_assoc]
                | false => exact absurd h2 (List.not_mem_nil p)
        · exact absurd h (List.not_mem_nil p)
      · exact ih _ _ _ h

/-- C1: the claim states that a symlink lying inside an allowed root
whose resolved target is outside every allowed root is rejected with
AccessDenied and never yields a resolved path.  The code violates this:
the symlink denial is thrown inside the try block whose catch handles a
failed resolution, so control falls through to the parent-directory
branch, which accepts the path and returns the nominal absolute path.
This theorem evaluates the code at such an input: the symlink target
is outside the allow-list, yet validation succeeds. -/
theorem c1_symlink_target_outside_is_returned :
    fsEvil.realpath "/home/user/evil" = some "/etc/secret"
    ∧ isAllowedBy cfgHome.allowedDirectories (normalizeAbs "/etc/secret") = false
    ∧ validatePath cfgHome fsEvil "/home/user/evil" = .ok "/home/user/evil" :=
  ⟨rfl, rfl, rfl⟩

/-- C2: the claim states that the allow-list check requires a
directory-separator or exact-equality boundary after the matching
root, so root /home/alice must reject /home/alice2/secret.  The code
uses a plain string-prefix test with no boundary check, so the sibling
path is authorized.  This theorem evaluates the code at that input:
the candidate extends the root without a separator, yet validation
succeeds. -/
theorem c2_prefix_without_boundary_authorizes_sibling :
    jsStartsWith "/home/alice2/secret" "/home/alice" = true
    ∧ jsStartsWith "/home/alice2/secret" "/home/alice/" = false
    ∧ validatePath cfgAlice fsId "/home/alice2/secret" = .ok "/home/alice2/secret" :=
  ⟨rfl, rfl, rfl⟩

/-- C3: the claim states that for a non-existent path, an existing
in-root parent gives success, a parent resolving outside every root
gives AccessDenied, and a missing parent gives NotFound.  The first and
third branches hold, but in the second branch the access-denied throw
sits inside the inner try block and its catch converts it into the
parent-does-not-exist error, so the code reports NotFound even though
the parent exists (as a symlink to a directory outside the roots).
This theorem evaluates all three branches. -/
theorem c3_nonexistent_path_parent_branches :
    validatePath cfgDataRoot fsParents "/data/ok/new.txt" = .ok "/data/ok/new.txt"
    ∧ validatePath cfgDataRoot fsParents "/data/gone/new.txt" = .error (.notFound "/data/gone")
    ∧ fsParents.realpath "/data/sub" = some "/outside/sub"
    ∧ validatePath cfgDataRoot fsParents "/data/sub/new.txt" = .error (.notFound "/data/sub") :=
  ⟨rfl, rfl, rfl, rfl⟩

/-- C4 counterexample: the claim quantifies over every path whose
canonical form is a strict descendant of an allowed root, but a strict
descendant whose parent does not exist is rejected with NotFound
instead of being authorized, so the claim as stated is false. -/
theorem c4_strict_descendant_missing_parent_fails :
    jsStartsWith (normalizeAbs (canonicalRequested cfgData "/data/a/b")) "/data/" = true
    ∧ validatePath cfgData fsDataOnlyRoot "/data/a/b" = .error (.notFound "/data/a") :=
  ⟨rfl, rfl⟩

/-- C4 amended: for every path whose canonical absolute form lies under
an allowed root in the string-prefix sense and resolves to itself (it
exists with no symlink divergence), authorization succeeds and returns
exactly the canonical form; moreover, with allow-list /data, the
request /data/../data/x.txt is authorized as /data/x.txt and
/etc/passwd is rejected with AccessDenied carrying the path and the
allow-list. -/
theorem c4_canonical_descendant_resolved_ok (cfg : Cfg) (fs : FS) (p r : String)
    (hr : r ∈ cfg.allowedDirectories)
    (hpre : jsStartsWith (normalizeAbs (canonicalRequested cfg p)) r = true)
    (hreal : fs.realpath (canonicalRequested cfg p) = some (canonicalRequested cfg p)) :
    validatePath cfg fs p = .ok (canonicalRequested cfg p)
    ∧ validatePath cfgData fsData "/data/../data/x.txt" = .ok "/data/x.txt"
    ∧ validatePath cfgData fsData "/etc/passwd"
        = .error (.accessDenied "/etc/passwd" ["/data"]) := by
  refine ⟨?_, rfl, rfl⟩
  have hall : isAllowedBy cfg.allowedDirectories
      (normalizeAbs (canonicalRequested cfg p)) = true :=
    List.any_eq_true.mpr ⟨r, hr, hpre⟩
  simp only [validatePath, hall, hreal, Bool.not_true, if_neg, Bool.false_eq_true,
    not_false_eq_true, if_true, if_pos]

/-- C4 witness: the amended theorem applied to the end-to-end fixture
at the existing in-root file. -/
theorem c4_canonical_descendant_resolved_ok_witness :
    validatePath cfgData fsData "/data/x.txt" = .ok (canonicalRequested cfgData "/data/x.txt")
    ∧ validatePath cfgData fsData "/data/../data/x.txt" = .ok "/data/x.txt"
    ∧ validatePath cfgData fsData "/etc/passwd"
        = .error (.accessDenied "/etc/passwd" ["/data"]) :=
  c4_canonical_descendant_resolved_ok cfgData fsData "/data/x.txt" "/data"
    (by decide) rfl rfl

/-- C5 counterexample: the claim states a fixed five-tier first
writable-wins priority order starting with an explicit override and the
platform desktop directory.  In an environment with no override
configured where the desktop directory exists and everything is
writable, the claimed resolver would pick the desktop tier, but the
code (with SAVE_TO_DESKTOP unset) saves under generated-images in the
working directory, which is not that candidate, so the claimed order is
false. -/
theorem c5_priority_chain_counterexample :
    envAll.saveToDesktop = none
    ∧ getDesktopPath envAll = "/home/u/Desktop"
    ∧ envAll.existsDir "/home/u/Desktop/generated-images" = true
    ∧ envAll.writeOk "/home/u/Desktop/generated-images/x.png" = true
    ∧ saveImageWithProperPath envAll "x.png" = .ok "/srv/app/generated-images/x.png"
    ∧ "/srv/app/generated-images/x.png" ≠ "/home/u/Desktop/generated-images/x.png" :=
  ⟨rfl, rfl, rfl, rfl, rfl, by decide⟩

/-- C5 amended: the save-location logic selects a single primary
directory determined by the SAVE_TO_DESKTOP flag, the desktop-derived
generated-images directory when the flag is the string true and
generated-images under the working directory otherwise; when that
directory exists or can be created and the file can be written there,
the save returns that path, consulting no other candidate.  There is no
explicit-override tier, no documents tier, no home tier and no
probe-write test; the only other tier is the working-directory output
fallback used on failure. -/
theorem c5_primary_directory_selection (env : Env) (fileName : String)
    (h1 : ensureDirectoryExists env (primaryDir env) = true)
    (h2 : env.writeOk (primaryDir env ++ "/" ++ fileName) = true) :
    saveImageWithProperPath env fileName = .ok (primaryDir env ++ "/" ++ fileName) := by
  simp only [saveImageWithProperPath, savePrimary, h1, h2, if_true]

/-- C5 witness: the amended theorem applied to the fully writable Linux
environment. -/
theorem c5_primary_directory_selection_witness :
    saveImageWithProperPath envAll "y.png" = .ok (primaryDir envAll ++ "/" ++ "y.png") :=
  c5_primary_directory_selection envAll "y.png" rfl rfl

/-- C6: the image-save logic never fails as long as the final
working-directory output tier works: whenever that directory exists or
can be created and the file can be written inside it, the save
succeeds for every environment state, however the primary candidate
behaves; only a hard failure on that final tier can propagate. -/
theorem c6_fallback_tier_guarantees_success (env : Env) (fileName : String)
    (h1 : ensureDirectoryExists env (env.cwd ++ "/output") = true)
    (h2 : env.writeOk (env.cwd ++ "/output" ++ "/" ++ fileName) = true) :
    (saveImageWithProperPath env fileName).isOk = true := by
  unfold saveImageWithProperPath
  cases hsp : savePrimary env fileName with
  | some p => rfl
  | none => simp only [h1, h2, if_true]; rfl

/-- C6 witness: in an environment where nothing exists and only the
working-directory output tier can be created and written, the save
still succeeds. -/
theorem c6_fallback_tier_guarantees_success_witness :
    (saveImageWithProperPath envRO "z.png").isOk = true :=
  c6_fallback_tier_guarantees_success envRO "z.png" rfl rfl

/-- C7: for every root, searching the specification tree (a.png,
sub/b.png, sub/c.txt) with include *.png and no excludes returns
exactly a.png and sub/b.png in depth-first pre-order; the include
pattern is matched case-insensitively against the entry base name
(A.PNG is matched by *.png); and a directory is descended into whether
or not it matches the include pattern (sub does not match *.png in the
first tree yet its child is found, and sub matches the pattern star in
the third tree, is returned, and is still descended into). -/
theorem c7_search_include_matching (root : String) :
    searchFiles cfgOpen fsId 100 root "*.png" [] (.dir "d" true treePng)
      = .ok [root ++ "/" ++ "a.png", (root ++ "/" ++ "sub") ++ "/" ++ "b.png"]
    ∧ searchFiles cfgOpen fsId 100 root "*.png" [] (.dir "d" true [.file "A.PNG"])
      = .ok [root ++ "/" ++ "A.PNG"]
    ∧ searchFiles cfgOpen fsId 100 root "*" [] (.dir "d" true [.dir "sub" true [.file "b.txt"]])
      = .ok [root ++ "/" ++ "sub", (root ++ "/" ++ "sub") ++ "/" ++ "b.txt"] :=
  ⟨rfl, rfl, rfl⟩

/-- C8 counterexample: the claim states that the search never descends
into and never returns any entry under a node_modules subtree, the
wrapped exclude pattern excluding every subtree whose relative path
contains the literal segment.  The wrapped pattern does not match the
bare segment itself, so the node_modules directory is not excluded: it
appears in the results of a search with include star and its children
are read (each child is then excluded), contradicting the claim. -/
theorem c8_node_modules_dir_itself_returned :
    minimatchB true false "**/node_modules/**" "node_modules" = false
    ∧ relativeTo "/data" "/data/node_modules" = "node_modules"
    ∧ searchFiles cfgOpen fsId 100 "/data" "*" ["node_modules"] (.dir "d" true treeNM)
      = .ok ["/data/node_modules", "/data/keep.txt"] :=
  ⟨rfl, rfl, rfl⟩

/-- C8 amended: a search with exclude node_modules never returns any
entry whose root-relative path matches the wrapped pattern, so nothing
strictly inside any node_modules subtree is ever returned (the
directory itself, whose bare relative path the wrapped pattern does not
match, may be returned and its immediate children are still read,
though each child is excluded and never descended into). -/
theorem c8_no_results_inside_node_modules (cfg : Cfg) (fs : FS) (fuel : Nat)
    (root : String) (rootDir : Entry) (rs : List String) (p : String)
    (hok : searchFiles cfg fs fuel root "*" ["node_modules"] rootDir = .ok rs)
    (hp : p ∈ rs) :
    shouldExcludeB ["node_modules"] (relativeTo root p) = false := by
  rcases rootDir with n | ⟨n, ok, children⟩
  · simp [searchFiles] at hok
  · cases ok with
    | false => simp [searchFiles] at hok
    | true =>
      simp only [searchFiles, Except.ok.injEq] at hok
      subst hok
      exact searchStep_not_excluded cfg fs root "*" ["node_modules"] fuel root children p hp

/-- C8 witness: the amended theorem applied to the concrete tree at the
returned node_modules path. -/
theorem c8_no_results_inside_node_modules_witness :
    shouldExcludeB ["node_modules"] (relativeTo "/data" "/data/node_modules") = false :=
  c8_no_results_inside_node_modules cfgOpen fsId 100 "/data" (.dir "d" true treeNM)
    ["/data/node_modules", "/data/keep.txt"] "/data/node_modules" rfl
    (List.mem_cons_self _ _)

/-- C9 counterexample: the claim states that a filesystem failure on a
single visited entry causes that entry and its subtree to be silently
skipped.  A directory whose children cannot be read is pruned, but the
directory entry itself was already appended before the failure and
stays in the results, so the entry is not skipped as claimed. -/
theorem c9_failed_readdir_entry_kept :
    searchFiles cfgOpen fsId 100 "/data" "*" [] (.dir "d" true treeBad)
      = .ok ["/data/baddir", "/data/a.png"] := rfl

/-- C9 amended: failures during a search are local with one nuance and
fatal at the top level.  A validation error on the requested search
path itself makes the whole request fail with that very error; an entry
failing authorization is skipped together with its subtree while the
walk continues over its siblings; a directory whose children cannot be
read keeps its own (already appended) entry but contributes nothing
below it; and a root that cannot be read fails the request. -/
theorem c9_error_locality_and_toplevel_fatal (cfg : Cfg) (fs : FS) (fuel : Nat)
    (p pattern : String) (excl : List String) (rootDir : Entry) (e : Err)
    (h : validatePath cfg fs p = .error e) :
    searchFilesTool cfg fs fuel p pattern excl rootDir = .error e
    ∧ searchFiles cfgDataRoot fsAuth 100 "/data" "*" [] (.dir "d" true treeAuth)
      = .ok ["/data/sub", "/data/sub/y.png"]
    ∧ searchFilesTool cfgOpen fsId 100 "/data" "*" [] (.dir "d" false [])
      = .error (.ioError "/data") := by
  refine ⟨?_, rfl, rfl⟩
  simp only [searchFilesTool, h]
  rfl

/-- C9 witness: the amended theorem applied at a requested path outside
the allow-list, whose access-denied error is reported verbatim. -/
theorem c9_error_locality_and_toplevel_fatal_witness :
    searchFilesTool cfgDataRoot fsAuth 100 "/etc/x" "*" [] (.dir "d" true treeAuth)
      = .error (.accessDenied "/etc/x" ["/data"])
    ∧ searchFiles cfgDataRoot fsAuth 100 "/data" "*" [] (.dir "d" true treeAuth)
      = .ok ["/data/sub", "/data/sub/y.png"]
    ∧ searchFilesTool cfgOpen fsId 100 "/data" "*" [] (.dir "d" false [])
      = .error (.ioError "/data") :=
  c9_error_locality_and_toplevel_fatal cfgDataRoot fsAuth 100 "/etc/x" "*" []
    (.dir "d" true treeAuth) (.accessDenied "/etc/x" ["/data"]) rfl

/-- C10: every path a search returns is a strict descendant of the
search root: it extends the root by a separator and a remainder, is
strictly longer than the root, and in particular is never the root
itself, because only entries read below the root are ever tested
against the include pattern. -/
theorem c10_results_strictly_below_root (cfg : Cfg) (fs : FS) (fuel : Nat)
    (root pattern : String) (excl : List String) (rootDir : Entry)
    (rs : List String) (p : String)
    (hok : searchFiles cfg fs fuel root pattern excl rootDir = .ok rs)
    (hp : p ∈ rs) :
    (∃ rest, p = root ++ "/" ++ rest) ∧ root.length < p.length ∧ p ≠ root := by
  have hbelow : ∃ rest, p = root ++ "/" ++ rest := by
    rcases rootDir with n | ⟨n, ok, children⟩
    · simp [searchFiles] at hok
    · cases ok with
      | false => simp [searchFiles] at hok
      | true =>
        simp only [searchFiles, Except.ok.injEq] at hok
        subst hok
        exact searchStep_below_current cfg fs root pattern excl fuel root children p hp
  obtain ⟨rest, hrest⟩ := hbelow
  have hlen : root.length < p.length := by
    rw [hrest, String.length_append, String.length_append]
    have hone : ("/" : String).length = 1 := rfl
    omega
  exact ⟨⟨rest, hrest⟩, hlen, fun hc => by rw [hc] at hlen; exact Nat.lt_irrefl _ hlen⟩

/-- C10 witness: the theorem applied to the specification tree at the
first returned path. -/
theorem c10_results_strictly_below_root_witness :
    (∃ rest, "/data/a.png" = "/data" ++ "/" ++ rest)
    ∧ "/data".length < "/data/a.png".length ∧ "/data/a.png" ≠ "/data" :=
  c10_results_strictly_below_root cfgOpen fsId 100 "/data" "*.png" [] (.dir "d" true treePng)
    ["/data" ++ "/" ++ "a.png", ("/data" ++ "/" ++ "sub") ++ "/" ++ "b.png"] "/data/a.png"
    rfl (by decide)

end CartoonServer
